import Mathlib

/-!
Verification of the mutual-fund dashboard's financial core
(`src/portfolio_manager.py` and `src/backend/calculations.py`).

Numbers are modelled as exact rationals (`ℚ`): the Python source computes in
IEEE doubles, and every claim here concerns the algorithm (FIFO matching,
accumulation, branch structure), not binary rounding.  Dates are modelled as
integer day numbers (`ℤ`); the source stores ISO strings and always converts
them to `datetime` before comparing or subtracting, so only the day ordering
and day differences are observable.
-/

namespace MFDash

/-- Models Python's `round(x, k)` (round-half-to-even on the scaled value).
`roundHalfEven x` is the integer nearest to `x`, ties going to the even
integer. -/
def roundHalfEven (x : ℚ) : ℤ :=
  let f := ⌊x⌋
  let r := x - (f : ℚ)
  if r < 1/2 then f else if 1/2 < r then f + 1 else if f % 2 = 0 then f else f + 1

/-- Python `round(x, k)` on an exact rational. -/
def pyround (x : ℚ) (k : ℕ) : ℚ :=
  (roundHalfEven (x * 10 ^ k) : ℚ) / 10 ^ k

/-- `Transaction` from `src/portfolio_manager.py`: one BUY/SELL row of the
stored portfolio.  `date` is the day number of the ISO date string,
`transaction_type` is the literal string field. -/
structure Transaction where
  date : ℤ
  scheme_code : String
  scheme_name : String
  transaction_type : String
  units : ℚ
  nav : ℚ
  amount : ℚ
  deriving DecidableEq, Repr

/-- `CapitalGain` record from `src/portfolio_manager.py`. -/
structure CapitalGain where
  sale_date : ℤ
  scheme_code : String
  scheme_name : String
  units_sold : ℚ
  sale_nav : ℚ
  sale_amount : ℚ
  purchase_nav : ℚ
  purchase_amount : ℚ
  gain_loss : ℚ
  gain_loss_percentage : ℚ
  holding_period_days : ℤ
  gain_type : String
  deriving DecidableEq, Repr

namespace PortfolioManager

/-- `EQUITY_LTCG_DAYS` / `DEBT_LTCG_DAYS` selection from
`calculate_capital_gains` (`ltcg_days = 365 if is_equity else 1095`). -/
def ltcgDays (is_equity : Bool) : ℤ :=
  if is_equity then 365 else 1095

/-- The body of the innermost FIFO `while` loop that builds one
`CapitalGain` for a matched (sell, buy-lot) pairing, lines 307-336 of
`portfolio_manager.py`.  `ufb` is `units_from_buy = min(units_to_sell,
buy_txn.units)`. -/
def mkGain (ltcg : ℤ) (sname : String) (sell buy : Transaction) (ufb : ℚ) :
    CapitalGain :=
  let purchase_amount := ufb * buy.nav
  let sale_amount := ufb * sell.nav
  let gain := sale_amount - purchase_amount
  let gain_pct := if 0 < purchase_amount then gain / purchase_amount * 100 else 0
  let holding_days := sell.date - buy.date
  { sale_date := sell.date
    scheme_code := sell.scheme_code
    scheme_name := sname
    units_sold := pyround ufb 3
    sale_nav := pyround sell.nav 4
    sale_amount := pyround sale_amount 2
    purchase_nav := pyround buy.nav 4
    purchase_amount := pyround purchase_amount 2
    gain_loss := pyround gain 2
    gain_loss_percentage := pyround gain_pct 2
    holding_period_days := holding_days
    gain_type := if ltcg ≤ holding_days then "LTCG" else "STCG" }

/-- The `while units_to_sell > 0 and buy_queue:` loop of
`calculate_capital_gains` for one SELL transaction.  Returns the emitted
gain records, the buy transactions popped from the queue (with their final,
mutated `units` field — the Python code mutates `buy_txn.units` in place,
and popping does not undo that), and the surviving queue (whose head may
also carry a mutated `units`). -/
def runSell (ltcg : ℤ) (sname : String) (sell : Transaction) :
    ℚ → List Transaction → List CapitalGain × List Transaction × List Transaction
  | _, [] => ([], [], [])
  | u2s, b :: rest =>
    if u2s ≤ 0 then ([], [], b :: rest)
    else
      let ufb := min u2s b.units
      let g := mkGain ltcg sname sell b ufb
      if b.units - ufb ≤ 0 then
        let res := runSell ltcg sname sell (u2s - ufb) rest
        (g :: res.1, { b with units := b.units - ufb } :: res.2.1, res.2.2)
      else
        ([g], [], { b with units := b.units - ufb } :: rest)

/-- The `for sell_txn in data['sells']:` loop: every SELL of one scheme is
matched against the (shared, mutated-in-place) buy queue in order.  Returns
all emitted gain records and the full list of buy transactions of the scheme
with their post-loop `units` values (popped lots first, then the surviving
queue — this preserves the original buy order). -/
def runSells (ltcg : ℤ) (sname : String) :
    List Transaction → List Transaction → List CapitalGain × List Transaction
  | [], queue => ([], queue)
  | s :: ss, queue =>
    let r1 := runSell ltcg sname s s.units queue
    let r2 := runSells ltcg sname ss r1.2.2
    (r1.1 ++ r2.1, r1.2.1 ++ r2.2)

/-- `data['buys']` for one scheme: the BUY transactions of that scheme in
list order (the Python code appends while iterating the filtered list). -/
def buysOf (txs : List Transaction) (s : String) : List Transaction :=
  txs.filter (fun t => t.scheme_code == s && t.transaction_type == "BUY")

/-- `data['sells']` for one scheme. -/
def sellsOf (txs : List Transaction) (s : String) : List Transaction :=
  txs.filter (fun t => t.scheme_code == s && t.transaction_type == "SELL")

/-- Insertion-order keys of the `schemes` dict: each scheme code on first
appearance, paired with `data['name']` (the `scheme_name` of the first
transaction of that scheme). -/
def schemeKeysGo : List Transaction → List String → List (String × String)
  | [], _ => []
  | t :: ts, seen =>
    if t.scheme_code ∈ seen then schemeKeysGo ts seen
    else (t.scheme_code, t.scheme_name) :: schemeKeysGo ts (t.scheme_code :: seen)

def schemeKeys (txs : List Transaction) : List (String × String) :=
  schemeKeysGo txs []

/-- Write-back of the in-place mutation: the BUY transactions of scheme `s`
inside the manager's transaction list are the very objects held in the buy
queue, so after the call their `units` fields hold the post-FIFO values.
`setBuyUnits s us txs` replaces the `units` of the successive BUYs of
scheme `s` by the successive entries of `us`. -/
def setBuyUnits (s : String) : List ℚ → List Transaction → List Transaction
  | _, [] => []
  | us, t :: ts =>
    if t.scheme_code == s && t.transaction_type == "BUY" then
      match us with
      | [] => t :: ts
      | u :: us' => { t with units := u } :: setBuyUnits s us' ts
    else
      t :: setBuyUnits s us ts

/-- `PortfolioManager.calculate_capital_gains(scheme_code, is_equity)`.

First component: the returned list of `CapitalGain` records (schemes in
first-appearance order, sells in list order, FIFO within each sell).
Second component: the state of `self.transactions` after the call.  The
Python code takes only a *shallow* copy of each scheme's buy list
(`buy_queue = data['buys'].copy()`), so decrementing `buy_txn.units`
writes through to the stored transaction objects; the second component
makes that side effect explicit. -/
def calculate_capital_gains (txs : List Transaction)
    (scheme_code : Option String) (is_equity : Bool) :
    List CapitalGain × List Transaction :=
  let ltcg := ltcgDays is_equity
  let ftxs := match scheme_code with
    | none => txs
    | some sc => txs.filter (fun t => t.scheme_code == sc)
  let keys := schemeKeys ftxs
  let results := keys.map fun k =>
    (k.1, runSells ltcg k.2 (sellsOf ftxs k.1) (buysOf ftxs k.1))
  ((results.map fun p => p.2.1).flatten,
   results.foldl (fun st p => setBuyUnits p.1 (p.2.2.map (fun b => b.units)) st) txs)

/-- One step of the accumulation loop of `PortfolioManager.get_holdings`
(lines 216-226): `st = (total_units, invested_amount)` for one scheme.
On a BUY: `total_units += units; invested_amount += amount`.  On a SELL:
`total_units -= units`, then if the remaining total is positive the
invested amount is reduced proportionally through the current average NAV
(`avg_nav = invested_amount / (total_units + units)`), else it is zeroed.
Other transaction types leave the state unchanged. -/
def hstep (st : ℚ × ℚ) (t : Transaction) : ℚ × ℚ :=
  if t.transaction_type = "BUY" then (st.1 + t.units, st.2 + t.amount)
  else if t.transaction_type = "SELL" then
    let tu := st.1 - t.units
    if 0 < tu then
      let avg_nav := st.2 / (tu + t.units)
      (tu, st.2 - t.units * avg_nav)
    else (tu, 0)
  else st

/-- The `(total_units, invested_amount)` accumulator of `get_holdings` for
scheme `s`: the dict entry for `s` is touched exactly by the transactions
of `s`, in list order, starting from `(0, 0)`. -/
def hstate (txs : List Transaction) (s : String) : ℚ × ℚ :=
  (txs.filter (fun t => t.scheme_code == s)).foldl hstep (0, 0)

end PortfolioManager

namespace Calculations

/-- Models Python float exponentiation `b ** e` from
`src/backend/calculations.py` on exact rationals.  When the exponent is an
integer (`e.den = 1`) the float operation computes the ordinary integer
power, which is what this function returns.  For a fractional exponent the
float operation computes an irrational real power that has no exact
rational value; this model returns 0 there, and no theorem in this file
evaluates `qpow` at a fractional exponent. -/
def qpow (b : ℚ) (e : ℚ) : ℚ :=
  if e.den = 1 then b ^ e.num else 0

/-- `days_amounts` of `xirr`: sort the cash flows by date (Python `sorted`
is stable; so is insertion sort) and replace each date by its day offset
from the earliest flow. -/
def daysAmounts (txs : List (ℤ × ℚ)) : List (ℤ × ℚ) :=
  let sorted := List.insertionSort (fun a b : ℤ × ℚ => a.1 ≤ b.1) txs
  match sorted with
  | [] => []
  | b :: _ => sorted.map fun t => (t.1 - b.1, t.2)

/-- `npv` accumulated in one pass of the Newton-Raphson loop of `xirr`:
`npv += amount / factor` with `factor = (1 + rate) ** (days / 365.0)`. -/
def npvQ (das : List (ℤ × ℚ)) (rate : ℚ) : ℚ :=
  (das.map fun p => p.2 / qpow (1 + rate) ((p.1 : ℚ) / 365)).sum

/-- `dnpv` accumulated in the same pass:
`dnpv -= (days / 365.0) * amount / (factor * (1 + rate))`. -/
def dnpvQ (das : List (ℤ × ℚ)) (rate : ℚ) : ℚ :=
  -(das.map fun p =>
      ((p.1 : ℚ) / 365) * p.2 / (qpow (1 + rate) ((p.1 : ℚ) / 365) * (1 + rate))).sum

/-- The post-update clamping of `xirr`:
`if rate < -0.99: rate = -0.99 elif rate > 10: rate = 10`. -/
def clampRate (r : ℚ) : ℚ :=
  if r < -(99/100) then -(99/100) else if 10 < r then 10 else r

/-- The `for iteration in range(max_iterations)` Newton-Raphson loop of
`xirr`, with `fuel` iterations left.  `Sum.inl r` is the in-loop
`return rate` on `abs(npv) < tolerance`; `Sum.inr (r, npv)` is reaching the
code after the loop (either via the small-derivative `break` or by
exhausting the iterations) with the current `rate` and the last computed
`npv`.  The fuel-0 case is unreachable from `xirr` (`max_iterations = 100`). -/
def nrLoop (npvF dnpvF : ℚ → ℚ) : ℕ → ℚ → ℚ ⊕ (ℚ × ℚ)
  | 0, rate => Sum.inr (rate, 0)
  | n + 1, rate =>
    let npv := npvF rate
    let dnpv := dnpvF rate
    if |npv| < 1/1000000 then Sum.inl rate
    else if |dnpv| < 1/10000000000 then Sum.inr (rate, npv)
    else
      let rate2 := clampRate (rate - npv / dnpv)
      if n = 0 then Sum.inr (rate2, npv) else nrLoop npvF dnpvF n rate2

/-- `xirr(transactions, guess=0.1)` from `src/backend/calculations.py`.
Cash flows are (day number, amount) pairs.  Returns `none` for fewer than
two flows; otherwise runs 100 Newton-Raphson iterations and finishes with
`return rate if abs(npv) < 0.01 else None`. -/
def xirr (txs : List (ℤ × ℚ)) (guess : ℚ) : Option ℚ :=
  if txs.length < 2 then none
  else
    let das := daysAmounts txs
    match nrLoop (npvQ das) (dnpvQ das) 100 guess with
    | Sum.inl r => some r
    | Sum.inr p => if |p.2| < 1/100 then some p.1 else none

/-- `calculate_cagr(invested, current_value, days)` from
`src/backend/calculations.py`.  `years = days / 365.0`; the exponent passed
to `**` is `1 / years`. -/
def calculate_cagr (invested current_value : ℚ) (days : ℤ) : Option ℚ :=
  if invested ≤ 0 ∨ current_value ≤ 0 ∨ days ≤ 0 then none
  else
    let years : ℚ := (days : ℚ) / 365
    if years < 1/100 then none
    else some ((qpow (current_value / invested) (1 / years) - 1) * 100)

/-- A purchase row passed to the backend `calculate_capital_gains`
(`'date'`, `'units'`, `'nav'`). -/
structure PurchaseTxn where
  date : ℤ
  units : ℚ
  nav : ℚ
  deriving DecidableEq, Repr

/-- The dictionary returned by the backend `calculate_capital_gains`. -/
structure GainsBreakdown where
  ltcg : ℚ
  stcg : ℚ
  total_gain : ℚ
  ltcg_taxable : ℚ
  stcg_taxable : ℚ
  deriving DecidableEq, Repr

/-- The `for txn in sorted_txns` loop of the backend
`calculate_capital_gains`, threading `(ltcg, stcg, units_to_process)`.
`if units_to_process <= 0: break` stops the whole loop.  `current_date`
models `datetime.now()` as an explicit parameter. -/
def cgGo (current_nav : ℚ) (current_date : ℤ) :
    List PurchaseTxn → ℚ × ℚ × ℚ → ℚ × ℚ × ℚ
  | [], st => st
  | t :: ts, (l, s, utp) =>
    if utp ≤ 0 then (l, s, utp)
    else
      let units := min t.units utp
      let holding_days := current_date - t.date
      let gain := units * (current_nav - t.nav)
      if 365 < holding_days then cgGo current_nav current_date ts (l + gain, s, utp - units)
      else cgGo current_nav current_date ts (l, s + gain, utp - units)

/-- `calculate_capital_gains(transactions, current_nav, redemption_units)`
from `src/backend/calculations.py`; `current_date` models
`datetime.now()`.  Classification here uses the strict test
`if holding_days > 365`. -/
def calculate_capital_gains (txs : List PurchaseTxn) (current_nav : ℚ)
    (redemption_units : ℚ) (current_date : ℤ) : GainsBreakdown :=
  let sorted := List.insertionSort (fun a b : PurchaseTxn => a.date ≤ b.date) txs
  let utp0 := if 0 < redemption_units then redemption_units
    else (sorted.map fun t => t.units).sum
  let fin := cgGo current_nav current_date sorted (0, 0, utp0)
  { ltcg := fin.1
    stcg := fin.2.1
    total_gain := fin.1 + fin.2.1
    ltcg_taxable := max 0 (fin.1 - 100000)
    stcg_taxable := fin.2.1 }

end Calculations

/-! ### Measurement functions used to state the claims -/

/-- Total `units` of a transaction list. -/
def unitsSum (l : List Transaction) : ℚ :=
  (l.map fun t => t.units).sum

/-- Total `units_sold` over a list of emitted gain records. -/
def soldSum (l : List CapitalGain) : ℚ :=
  (l.map fun g => g.units_sold).sum

/-- `q` is a whole multiple of 0.001, the precision to which
`calculate_capital_gains` rounds the emitted `units_sold` field. -/
def Mult1000 (q : ℚ) : Prop :=
  ∃ n : ℤ, q * 1000 = (n : ℚ)

/-! ## Helper lemmas -/

namespace Calculations

theorem qpow_intCast (b : ℚ) (n : ℤ) : qpow b (n : ℚ) = b ^ n := by
  simp [qpow]

theorem qpow_one (b : ℚ) : qpow b 1 = b := by
  have h : qpow b ((1 : ℤ) : ℚ) = b ^ (1 : ℤ) := qpow_intCast b 1
  simpa using h

theorem qpow_zero (b : ℚ) : qpow b 0 = 1 := by
  have h : qpow b ((0 : ℤ) : ℚ) = b ^ (0 : ℤ) := qpow_intCast b 0
  simpa using h

theorem nrLoop_succ (npvF dnpvF : ℚ → ℚ) (n : ℕ) (rate : ℚ) :
    nrLoop npvF dnpvF (n + 1) rate =
      (let npv := npvF rate
       let dnpv := dnpvF rate
       if |npv| < 1/1000000 then Sum.inl rate
       else if |dnpv| < 1/10000000000 then Sum.inr (rate, npv)
       else
         let rate2 := clampRate (rate - npv / dnpv)
         if n = 0 then Sum.inr (rate2, npv) else nrLoop npvF dnpvF n rate2) :=
  rfl

theorem nrLoop_succ_expand (npvF dnpvF : ℚ → ℚ) (n : ℕ) (rate : ℚ) :
    nrLoop npvF dnpvF (n + 1) rate =
      if |npvF rate| < 1/1000000 then Sum.inl rate
      else if |dnpvF rate| < 1/10000000000 then Sum.inr (rate, npvF rate)
      else if n = 0 then Sum.inr (clampRate (rate - npvF rate / dnpvF rate), npvF rate)
      else nrLoop npvF dnpvF n (clampRate (rate - npvF rate / dnpvF rate)) :=
  rfl

/-- The loop returns through `Sum.inl` only via the primary convergence
test, so the returned rate has |NPV| below the 1e-6 tolerance. -/
theorem nrLoop_inl (npvF dnpvF : ℚ → ℚ) :
    ∀ (n : ℕ) (g r : ℚ), nrLoop npvF dnpvF n g = Sum.inl r →
      |npvF r| < 1/1000000 := by
  intro n
  induction n with
  | zero => intro g r h; simp [nrLoop] at h
  | succ m ih =>
    intro g r h
    rw [nrLoop_succ_expand] at h
    split_ifs at h with h1 h2 h3
    · simp only [Sum.inl.injEq] at h
      exact h ▸ h1
    · exact ih _ _ h

/-- When the loop falls through to the code after it, the reported `npv`
is the NPV of some rate evaluated along the way. -/
theorem nrLoop_inr (npvF dnpvF : ℚ → ℚ) :
    ∀ (n : ℕ) (g r npv : ℚ), 1 ≤ n → nrLoop npvF dnpvF n g = Sum.inr (r, npv) →
      ∃ ρ : ℚ, npv = npvF ρ := by
  intro n
  induction n with
  | zero => intro g r npv hn; omega
  | succ m ih =>
    intro g r npv hn h
    rw [nrLoop_succ_expand] at h
    split_ifs at h with h1 h2 h3
    · simp only [Sum.inr.injEq, Prod.mk.injEq] at h
      exact ⟨g, h.2.symm⟩
    · simp only [Sum.inr.injEq, Prod.mk.injEq] at h
      exact ⟨g, h.2.symm⟩
    · exact ih _ _ _ (Nat.one_le_iff_ne_zero.mpr h3) h

/-- Case analysis of a successful `xirr` run: either the in-loop
convergence test fired at the returned rate, or the loop fell through with
a last `npv` accepted by the loose |npv| < 0.01 exit test. -/
theorem xirr_some_cases (txs : List (ℤ × ℚ)) (g r : ℚ)
    (hl : ¬txs.length < 2) (h : xirr txs g = some r) :
    |npvQ (daysAmounts txs) r| < 1/1000000
    ∨ ∃ npv : ℚ,
        nrLoop (npvQ (daysAmounts txs)) (dnpvQ (daysAmounts txs)) 100 g =
          Sum.inr (r, npv) ∧ |npv| < 1/100 := by
  simp only [xirr] at h
  rw [if_neg hl] at h
  cases hm : nrLoop (npvQ (daysAmounts txs)) (dnpvQ (daysAmounts txs)) 100 g with
  | inl r' =>
    rw [hm] at h
    simp only [Option.some.injEq] at h
    exact Or.inl (h ▸ nrLoop_inl _ _ 100 g r' hm)
  | inr p =>
    rw [hm] at h
    by_cases hc : |p.2| < 1/100
    · simp only [if_pos hc, Option.some.injEq] at h
      subst h
      exact Or.inr ⟨p.2, rfl, hc⟩
    · simp only [if_neg hc] at h
      exact absurd h (by simp)

/-- `days_amounts` for the C7 counterexample input is the input itself
(already date-sorted, base date 0). -/
theorem xirr_cex_das :
    daysAmounts [(0, -(9/1000)), (365, 1/10000000000)] =
      [(0, -(9/1000)), (365, 1/10000000000)] := by
  norm_num [daysAmounts]

/-- On the two-flow input (−0.009 at day 0, 10⁻¹⁰ at day 365) with the
default guess 0.1, the first Newton-Raphson iteration already hits the
small-derivative `break` (|dnpv| ≈ 8.26·10⁻¹¹ < 10⁻¹⁰) while
|npv| ≈ 0.009, so the loop exits with the untouched guess. -/
theorem xirr_cex_loop :
    nrLoop (npvQ [(0, -(9/1000)), (365, 1/10000000000)])
      (dnpvQ [(0, -(9/1000)), (365, 1/10000000000)]) 100 (1/10) =
      Sum.inr (1/10, -(98999999/11000000000)) := by
  rw [show (100 : ℕ) = 99 + 1 from rfl, nrLoop_succ]
  norm_num [npvQ, dnpvQ, qpow_one, qpow_zero, abs_of_pos, abs_of_neg]

/-- The loose exit acceptance then passes (0.009 < 0.01) and `xirr`
returns the rate 0.1. -/
theorem xirr_cex_eval :
    xirr [(0, -(9/1000)), (365, 1/10000000000)] (1/10) = some (1/10) := by
  rw [xirr]
  norm_num [daysAmounts]
  rw [xirr_cex_loop]
  norm_num [abs_of_pos]

end Calculations

theorem unitsSum_nil : unitsSum [] = 0 := rfl

theorem unitsSum_cons (t : Transaction) (l : List Transaction) :
    unitsSum (t :: l) = t.units + unitsSum l := by
  simp [unitsSum]

theorem unitsSum_nonneg (l : List Transaction) (h : ∀ t ∈ l, 0 ≤ t.units) :
    0 ≤ unitsSum l := by
  induction l with
  | nil => simp [unitsSum]
  | cons t ts ih =>
    rw [unitsSum_cons]
    have h1 := h t (by simp)
    have h2 := ih fun x hx => h x (by simp [hx])
    linarith

theorem soldSum_nil : soldSum [] = 0 := rfl

theorem soldSum_cons (g : CapitalGain) (l : List CapitalGain) :
    soldSum (g :: l) = g.units_sold + soldSum l := by
  simp [soldSum]

theorem soldSum_append (a b : List CapitalGain) :
    soldSum (a ++ b) = soldSum a + soldSum b := by
  simp [soldSum]

theorem mult1000_sub {a b : ℚ} (ha : Mult1000 a) (hb : Mult1000 b) :
    Mult1000 (a - b) := by
  obtain ⟨n, hn⟩ := ha
  obtain ⟨m, hm⟩ := hb
  exact ⟨n - m, by push_cast; rw [← hn, ← hm]; ring⟩

theorem mult1000_min {a b : ℚ} (ha : Mult1000 a) (hb : Mult1000 b) :
    Mult1000 (min a b) := by
  rcases le_total a b with h | h
  · rwa [min_eq_left h]
  · rwa [min_eq_right h]

/-- Python's `round(x, 3)` is the identity on whole multiples of 0.001. -/
theorem pyround3_mult {q : ℚ} (h : Mult1000 q) : pyround q 3 = q := by
  obtain ⟨n, hn⟩ := h
  have h3 : q * 10 ^ 3 = (n : ℚ) := by
    rw [← hn]; norm_num
  simp only [pyround, roundHalfEven]
  rw [h3, Int.floor_intCast]
  norm_num
  rw [← hn]
  ring

namespace PortfolioManager

/-- FIFO gain records for a BUY held exactly 365 days and then fully sold:
one record with `holding_period_days = 365` and `gain_type = "LTCG"`
(the code tests `holding_days >= ltcg_days`). -/
theorem pm365_eval :
    (calculate_capital_gains
        [⟨0, "S1", "EquityFund", "BUY", 100, 10, 1000⟩,
         ⟨365, "S1", "EquityFund", "SELL", 100, 30, 3000⟩] none true).1 =
      [⟨365, "S1", "EquityFund", 100, 30, 3000, 10, 1000, 2000, 200, 365, "LTCG"⟩] := by
  norm_num [calculate_capital_gains, ltcgDays, schemeKeys, schemeKeysGo,
    buysOf, sellsOf, runSells, runSell, mkGain, pyround, roundHalfEven]

/-- A record built by the matching loop is typed `"LTCG"` exactly when its
own `holding_period_days` reaches the threshold. -/
theorem mkGain_type_iff (ltcg : ℤ) (sname : String) (sell buy : Transaction)
    (ufb : ℚ) :
    ((mkGain ltcg sname sell buy ufb).gain_type = "LTCG" ↔
      ltcg ≤ (mkGain ltcg sname sell buy ufb).holding_period_days) := by
  simp only [mkGain]
  split_ifs with h
  · exact iff_of_true rfl h
  · exact iff_of_false (by simp) h

theorem runSell_type_iff (ltcg : ℤ) (sname : String) (sell : Transaction) :
    ∀ (queue : List Transaction) (u2s : ℚ) (g : CapitalGain),
      g ∈ (runSell ltcg sname sell u2s queue).1 →
      (g.gain_type = "LTCG" ↔ ltcg ≤ g.holding_period_days) := by
  intro queue
  induction queue with
  | nil => intro u2s g hg; simp [runSell] at hg
  | cons b rest ih =>
    intro u2s g hg
    simp only [runSell] at hg
    split_ifs at hg with h1 h2
    · simp at hg
    · rcases List.mem_cons.mp hg with hge | hgr
      · exact hge ▸ mkGain_type_iff ltcg sname sell b (min u2s b.units)
      · exact ih _ g hgr
    · rcases List.mem_cons.mp hg with hge | hgr
      · exact hge ▸ mkGain_type_iff ltcg sname sell b (min u2s b.units)
      · simp at hgr

theorem runSells_type_iff (ltcg : ℤ) (sname : String) :
    ∀ (sells queue : List Transaction) (g : CapitalGain),
      g ∈ (runSells ltcg sname sells queue).1 →
      (g.gain_type = "LTCG" ↔ ltcg ≤ g.holding_period_days) := by
  intro sells
  induction sells with
  | nil => intro queue g hg; simp [runSells] at hg
  | cons s ss ih =>
    intro queue g hg
    simp only [runSells] at hg
    rcases List.mem_append.mp hg with hgl | hgr
    · exact runSell_type_iff ltcg sname s _ _ g hgl
    · exact ih _ g hgr

/-- Every record emitted by `calculate_capital_gains` is typed `"LTCG"`
exactly when its holding period reaches the selected threshold. -/
theorem calc_gains_type_iff (txs : List Transaction) (sc : Option String)
    (is_eq : Bool) (g : CapitalGain)
    (hg : g ∈ (calculate_capital_gains txs sc is_eq).1) :
    (g.gain_type = "LTCG" ↔ ltcgDays is_eq ≤ g.holding_period_days) := by
  simp only [calculate_capital_gains, List.mem_flatten, List.mem_map] at hg
  obtain ⟨l, ⟨p, hp, rfl⟩, hgl⟩ := hg
  obtain ⟨k, hk, rfl⟩ := hp
  exact runSells_type_iff _ _ _ _ g hgl

/-- FIFO conservation for one SELL: if the outstanding quantity `u2s` is
nonnegative and covered by the queue, the matching loop consumes exactly
`u2s` (the emitted `units_sold` values sum to `u2s` because each is a
whole multiple of 0.001, so the 3-decimal rounding is the identity), the
surviving queue's total drops by `u2s`, and its entries remain multiples
of 0.001. -/
theorem runSell_conserve (ltcg : ℤ) (sname : String) (sell : Transaction) :
    ∀ (queue : List Transaction) (u2s : ℚ), 0 ≤ u2s → u2s ≤ unitsSum queue →
      Mult1000 u2s → (∀ b ∈ queue, Mult1000 b.units) →
      soldSum (runSell ltcg sname sell u2s queue).1 = u2s
      ∧ unitsSum (runSell ltcg sname sell u2s queue).2.2 = unitsSum queue - u2s
      ∧ (∀ b ∈ (runSell ltcg sname sell u2s queue).2.2, Mult1000 b.units) := by
  intro queue
  induction queue with
  | nil =>
    intro u2s h0 hle _ _
    have hz : u2s = 0 := le_antisymm (by simpa [unitsSum] using hle) h0
    subst hz
    simp [runSell, soldSum, unitsSum]
  | cons b rest ih =>
    intro u2s h0 hle hm hq
    have hbm : Mult1000 b.units := hq b (by simp)
    have hrm : ∀ t ∈ rest, Mult1000 t.units := fun t ht => hq t (by simp [ht])
    rw [unitsSum_cons] at hle
    simp only [runSell]
    split_ifs with h1 h2
    · have hz : u2s = 0 := le_antisymm h1 h0
      subst hz
      refine ⟨soldSum_nil, by rw [unitsSum_cons]; ring, hq⟩
    · have hbu : b.units ≤ u2s := by
        by_contra hc
        push_neg at hc
        rw [min_eq_left (le_of_lt hc)] at h2
        linarith
      rw [min_eq_right hbu] at h2 ⊢
      obtain ⟨hs, hu, hmm⟩ := ih (u2s - b.units) (by linarith) (by linarith)
        (mult1000_sub hm hbm) hrm
      refine ⟨?_, ?_, hmm⟩
      · rw [soldSum_cons, hs]
        simp only [mkGain]
        rw [pyround3_mult hbm]
        ring
      · rw [hu, unitsSum_cons]
        ring
    · have hub : min u2s b.units = u2s := by
        rcases le_total u2s b.units with h | h
        · exact min_eq_left h
        · rw [min_eq_right h] at h2
          exact absurd (by linarith : b.units - b.units ≤ 0) h2
      rw [hub] at h2 ⊢
      refine ⟨?_, ?_, ?_⟩
      · rw [soldSum_cons, soldSum_nil]
        simp only [mkGain]
        rw [pyround3_mult hm]
        ring
      · rw [unitsSum_cons, unitsSum_cons]
        simp only
        ring
      · intro t ht
        rcases List.mem_cons.mp ht with rfl | htr
        · exact mult1000_sub hbm hm
        · exact hrm t htr

/-- FIFO conservation over all SELLs of one scheme: when every SELL is
covered (total sell quantity ≤ total quantity initially in the queue,
which holds whenever cumulative BUY ≥ cumulative SELL at every point since
the queue holds every BUY of the scheme), the emitted `units_sold` values
sum to the total SELL quantity. -/
theorem runSells_conserve (ltcg : ℤ) (sname : String) :
    ∀ (sells queue : List Transaction),
      (∀ t ∈ sells, 0 ≤ t.units ∧ Mult1000 t.units) →
      (∀ b ∈ queue, Mult1000 b.units) →
      unitsSum sells ≤ unitsSum queue →
      soldSum (runSells ltcg sname sells queue).1 = unitsSum sells := by
  intro sells
  induction sells with
  | nil => intro queue _ _ _; simp [runSells, soldSum, unitsSum]
  | cons s ss ih =>
    intro queue hs hq hle
    rw [unitsSum_cons] at hle
    have hss : ∀ t ∈ ss, 0 ≤ t.units ∧ Mult1000 t.units :=
      fun t ht => hs t (by simp [ht])
    have hssn : 0 ≤ unitsSum ss := unitsSum_nonneg ss fun t ht => (hss t ht).1
    obtain ⟨hsold, hq', hm'⟩ := runSell_conserve ltcg sname s queue s.units
      (hs s (by simp)).1 (by linarith) (hs s (by simp)).2 hq
    simp only [runSells]
    rw [soldSum_append, hsold, ih _ hss hm' (by rw [hq']; linarith), unitsSum_cons]

/-- When the single SELL exceeds the whole queue (nonnegative lots), the
loop drains the queue completely: the emitted `units_sold` values sum to
the queue total and the queue is left empty. -/
theorem runSell_drain (ltcg : ℤ) (sname : String) (sell : Transaction) :
    ∀ (queue : List Transaction) (u2s : ℚ),
      (∀ b ∈ queue, 0 ≤ b.units ∧ Mult1000 b.units) →
      unitsSum queue < u2s →
      soldSum (runSell ltcg sname sell u2s queue).1 = unitsSum queue
      ∧ (runSell ltcg sname sell u2s queue).2.2 = [] := by
  intro queue
  induction queue with
  | nil => intro u2s _ _; simp [runSell, soldSum, unitsSum]
  | cons b rest ih =>
    intro u2s hq hlt
    have hbm := hq b (by simp)
    have hrq : ∀ t ∈ rest, 0 ≤ t.units ∧ Mult1000 t.units :=
      fun t ht => hq t (by simp [ht])
    have hrn : 0 ≤ unitsSum rest := unitsSum_nonneg rest fun t ht => (hrq t ht).1
    rw [unitsSum_cons] at hlt
    have h0 : 0 < u2s := by linarith [hbm.1]
    have hbu : b.units ≤ u2s := by linarith [hbm.1]
    simp only [runSell]
    rw [if_neg (not_le.mpr h0), min_eq_right hbu]
    rw [if_pos (by linarith : b.units - b.units ≤ 0)]
    obtain ⟨hs, he⟩ := ih (u2s - b.units) hrq (by linarith)
    refine ⟨?_, he⟩
    rw [soldSum_cons, hs]
    simp only [mkGain]
    rw [pyround3_mult hbm.2, unitsSum_cons]

/-- `schemeKeysGo` emits nothing once the (single) scheme is in `seen`. -/
theorem schemeKeysGo_seen :
    ∀ (l : List Transaction) (seen : List String) (s : String),
      (∀ t ∈ l, t.scheme_code = s) → s ∈ seen → schemeKeysGo l seen = [] := by
  intro l
  induction l with
  | nil => intro seen s _ _; rfl
  | cons t ts ih =>
    intro seen s hall hs
    simp only [schemeKeysGo]
    rw [if_pos (by rw [hall t (by simp)]; exact hs)]
    exact ih seen s (fun x hx => hall x (by simp [hx])) hs

/-- For a nonempty single-scheme log the `schemes` dict has exactly one
key, named after the first transaction. -/
theorem schemeKeys_uniform (t0 : Transaction) (ts : List Transaction) (s : String)
    (hall : ∀ t ∈ t0 :: ts, t.scheme_code = s) :
    schemeKeys (t0 :: ts) = [(s, t0.scheme_name)] := by
  simp only [schemeKeys, schemeKeysGo]
  rw [if_neg (by simp)]
  rw [hall t0 (by simp)]
  rw [schemeKeysGo_seen ts [s] s (fun x hx => hall x (by simp [hx])) (by simp)]

/-- For a nonempty single-scheme log, the gains of
`calculate_capital_gains(None, True)` are exactly the per-scheme FIFO run. -/
theorem calc_uniform_gains (s : String) (t0 : Transaction) (ts : List Transaction)
    (hall : ∀ t ∈ t0 :: ts, t.scheme_code = s) :
    (calculate_capital_gains (t0 :: ts) none true).1 =
      (runSells 365 t0.scheme_name (sellsOf (t0 :: ts) s) (buysOf (t0 :: ts) s)).1 := by
  simp only [calculate_capital_gains]
  rw [schemeKeys_uniform t0 ts s hall]
  simp [ltcgDays]

/-- Unfolding the holdings accumulator: the running `total_units`
component is the fold start plus ΣBUY − ΣSELL over the list. -/
theorem hfold_units :
    ∀ (l : List Transaction) (st : ℚ × ℚ),
      (l.foldl hstep st).1 =
        st.1 + unitsSum (l.filter fun t => t.transaction_type == "BUY")
          - unitsSum (l.filter fun t => t.transaction_type == "SELL") := by
  intro l
  induction l with
  | nil => intro st; simp [unitsSum]
  | cons t ts ih =>
    intro st
    rw [List.foldl_cons, ih]
    by_cases hb : t.transaction_type = "BUY"
    · have h1 : hstep st t = (st.1 + t.units, st.2 + t.amount) := by
        simp only [hstep, if_pos hb]
      rw [h1]
      simp [List.filter_cons, hb, unitsSum_cons]
      ring
    · by_cases hs : t.transaction_type = "SELL"
      · have h1 : (hstep st t).1 = st.1 - t.units := by
          simp only [hstep, if_neg hb, if_pos hs]
          split_ifs <;> rfl
        rw [h1]
        simp [List.filter_cons, hb, hs, unitsSum_cons]
        ring
      · have h1 : hstep st t = st := by
          simp only [hstep, if_neg hb, if_neg hs]
        rw [h1]
        simp only [List.filter_cons]
        rw [if_neg (by simp [hb]), if_neg (by simp [hs])]

end PortfolioManager

/-! ## Claim theorems -/

/-- C1 (code bug).  The claim says `calculate_capital_gains` leaves the
stored transaction log unchanged and that a second identical call returns
identical gain records.  The code takes only a shallow copy of each
scheme's buy list (`buy_queue = data['buys'].copy()`), so the in-place
decrement `buy_txn.units -= units_from_buy` writes through to the stored
`Transaction` objects.  On the log [BUY 100 @10 day 0, SELL 50 @30 day 10,
SELL 50 @30 day 20] the call zeroes the stored BUY's `units` (first
conjunct), the first call emits 2 gain records, and a second call on the
now-mutated manager emits only 1 (a degenerate 0-unit record). -/
theorem c1_gain_computation_mutates_log :
    (PortfolioManager.calculate_capital_gains
        [⟨0, "S1", "EquityFund", "BUY", 100, 10, 1000⟩,
         ⟨10, "S1", "EquityFund", "SELL", 50, 30, 1500⟩,
         ⟨20, "S1", "EquityFund", "SELL", 50, 30, 1500⟩] none true).2 =
      [⟨0, "S1", "EquityFund", "BUY", 0, 10, 1000⟩,
       ⟨10, "S1", "EquityFund", "SELL", 50, 30, 1500⟩,
       ⟨20, "S1", "EquityFund", "SELL", 50, 30, 1500⟩]
    ∧ (PortfolioManager.calculate_capital_gains
        [⟨0, "S1", "EquityFund", "BUY", 100, 10, 1000⟩,
         ⟨10, "S1", "EquityFund", "SELL", 50, 30, 1500⟩,
         ⟨20, "S1", "EquityFund", "SELL", 50, 30, 1500⟩] none true).1.length = 2
    ∧ (PortfolioManager.calculate_capital_gains
        [⟨0, "S1", "EquityFund", "BUY", 0, 10, 1000⟩,
         ⟨10, "S1", "EquityFund", "SELL", 50, 30, 1500⟩,
         ⟨20, "S1", "EquityFund", "SELL", 50, 30, 1500⟩] none true).1.length = 1 := by
  refine ⟨?_, ?_, ?_⟩ <;>
    norm_num [PortfolioManager.calculate_capital_gains, PortfolioManager.ltcgDays,
      PortfolioManager.schemeKeys, PortfolioManager.schemeKeysGo,
      PortfolioManager.buysOf, PortfolioManager.sellsOf, PortfolioManager.runSells,
      PortfolioManager.runSell, PortfolioManager.mkGain, PortfolioManager.setBuyUnits,
      pyround, roundHalfEven]

/-- C5 (confirmed).  BUY 100 @10 on day 0, BUY 100 @20 on day 10,
SELL 150 @30 on day 20: FIFO produces exactly two gain records — 100 units
against the day-0 lot with gain 2000, then 50 units against the day-10 lot
with gain 500 — and the total realized gain is 2500. -/
theorem c5_fifo_ordering :
    (PortfolioManager.calculate_capital_gains
        [⟨0, "S1", "EquityFund", "BUY", 100, 10, 1000⟩,
         ⟨10, "S1", "EquityFund", "BUY", 100, 20, 2000⟩,
         ⟨20, "S1", "EquityFund", "SELL", 150, 30, 4500⟩] none true).1 =
      [⟨20, "S1", "EquityFund", 100, 30, 3000, 10, 1000, 2000, 200, 20, "STCG"⟩,
       ⟨20, "S1", "EquityFund", 50, 30, 1500, 20, 1000, 500, 50, 10, "STCG"⟩]
    ∧ (((PortfolioManager.calculate_capital_gains
        [⟨0, "S1", "EquityFund", "BUY", 100, 10, 1000⟩,
         ⟨10, "S1", "EquityFund", "BUY", 100, 20, 2000⟩,
         ⟨20, "S1", "EquityFund", "SELL", 150, 30, 4500⟩] none true).1.map
          fun g => g.gain_loss).sum) = 2500 := by
  constructor <;>
    norm_num [PortfolioManager.calculate_capital_gains, PortfolioManager.ltcgDays,
      PortfolioManager.schemeKeys, PortfolioManager.schemeKeysGo,
      PortfolioManager.buysOf, PortfolioManager.sellsOf, PortfolioManager.runSells,
      PortfolioManager.runSell, PortfolioManager.mkGain, pyround, roundHalfEven]

/-- C10 (confirmed).  All BUY transactions of a scheme are enqueued before
any SELL is processed, with no date cutoff: on the log [SELL 50 @30 day 0,
BUY 100 @10 day 10] the SELL is matched against the later-dated BUY lot and
the emitted record has a negative holding period (−10 days). -/
theorem c10_negative_holding_period :
    (PortfolioManager.calculate_capital_gains
        [⟨0, "S1", "EquityFund", "SELL", 50, 30, 1500⟩,
         ⟨10, "S1", "EquityFund", "BUY", 100, 10, 1000⟩] none true).1 =
      [⟨0, "S1", "EquityFund", 50, 30, 1500, 10, 500, 1000, 200, -10, "STCG"⟩]
    ∧ ((-10 : ℤ) < 0) := by
  constructor
  · norm_num [PortfolioManager.calculate_capital_gains, PortfolioManager.ltcgDays,
      PortfolioManager.schemeKeys, PortfolioManager.schemeKeysGo,
      PortfolioManager.buysOf, PortfolioManager.sellsOf, PortfolioManager.runSells,
      PortfolioManager.runSell, PortfolioManager.mkGain, pyround, roundHalfEven]
  · norm_num

/-- C2 counterexample.  On the log [BUY 100 @10 day 0, SELL 150 @30
day 10] the SELL quantity (150) exceeds the total available BUY lot
quantity (100), yet `calculate_capital_gains` returns an ordinary record
list — a single gain record covering only 100 of the 150 sold units — and
its signature carries no error value at all: the data-consistency
violation is not surfaced, refuting the claim. -/
theorem c2_counterexample_silent_truncation :
    (PortfolioManager.calculate_capital_gains
        [⟨0, "S1", "EquityFund", "BUY", 100, 10, 1000⟩,
         ⟨10, "S1", "EquityFund", "SELL", 150, 30, 4500⟩] none true).1 =
      [⟨10, "S1", "EquityFund", 100, 30, 3000, 10, 1000, 2000, 200, 10, "STCG"⟩]
    ∧ soldSum [⟨10, "S1", "EquityFund", 100, 30, 3000, 10, 1000, 2000, 200, 10, "STCG"⟩] = 100
    ∧ (100 : ℚ) < 150 := by
  refine ⟨?_, ?_, ?_⟩
  · norm_num [PortfolioManager.calculate_capital_gains, PortfolioManager.ltcgDays,
      PortfolioManager.schemeKeys, PortfolioManager.schemeKeysGo,
      PortfolioManager.buysOf, PortfolioManager.sellsOf, PortfolioManager.runSells,
      PortfolioManager.runSell, PortfolioManager.mkGain, pyround, roundHalfEven]
  · norm_num [soldSum]
  · norm_num

/-- C3 counterexample.  The claim covers both cited gain computations and
asserts LongTerm exactly when the holding period is ≥ the 365-day equity
threshold.  The backend `calculate_capital_gains` tests
`holding_days > 365`: a lot purchased exactly 365 days before the
evaluation date (holding period 365 ≥ 365) has its entire gain classified
short-term (`stcg = 2500`, `ltcg = 0`), refuting the claim. -/
theorem c3_counterexample_backend_boundary :
    Calculations.calculate_capital_gains [⟨0, 100, 50⟩] 75 0 365 =
      ⟨0, 2500, 2500, 0, 2500⟩
    ∧ (365 : ℤ) - 0 ≥ 365 := by
  constructor
  · norm_num [Calculations.calculate_capital_gains, Calculations.cgGo]
  · norm_num

/-- C3 amended.  In `PortfolioManager.calculate_capital_gains` every
emitted record is classified `"LTCG"` exactly when its holding period in
days is ≥ the threshold (365 for equity, 1095 for debt), and a SELL
exactly 365 days after its matched BUY is classified `"LTCG"`.  The
backend `calculate_capital_gains`, however, classifies a lot long-term
only when the holding period is strictly greater than 365 days (a lot held
exactly 365 days is short-term there, and the threshold is fixed at 365). -/
theorem c3_amended_classification :
    (∀ (txs : List Transaction) (sc : Option String) (is_eq : Bool) (g : CapitalGain),
        g ∈ (PortfolioManager.calculate_capital_gains txs sc is_eq).1 →
        (g.gain_type = "LTCG" ↔ PortfolioManager.ltcgDays is_eq ≤ g.holding_period_days))
    ∧ ((PortfolioManager.calculate_capital_gains
          [⟨0, "S1", "EquityFund", "BUY", 100, 10, 1000⟩,
           ⟨365, "S1", "EquityFund", "SELL", 100, 30, 3000⟩] none true).1.map
        fun g => g.gain_type) = ["LTCG"]
    ∧ (∀ (t : Calculations.PurchaseTxn) (cnav : ℚ) (cd : ℤ), 0 < t.units →
        (Calculations.calculate_capital_gains [t] cnav 0 cd).ltcg =
          (if 365 < cd - t.date then t.units * (cnav - t.nav) else 0)
        ∧ (Calculations.calculate_capital_gains [t] cnav 0 cd).stcg =
          (if 365 < cd - t.date then 0 else t.units * (cnav - t.nav))) := by
  refine ⟨?_, ?_, ?_⟩
  · exact PortfolioManager.calc_gains_type_iff
  · rw [PortfolioManager.pm365_eval]
    rfl
  · intro t cnav cd hu
    have h0 : (if (0:ℚ) < 0 then (0:ℚ) else t.units + 0) = t.units := by norm_num
    simp only [Calculations.calculate_capital_gains, List.insertionSort,
      List.orderedInsert, List.map_cons, List.map_nil, List.sum_cons, List.sum_nil]
    rw [h0]
    simp only [Calculations.cgGo]
    rw [if_neg (not_le.mpr hu), min_self]
    split_ifs with h
    · constructor <;> norm_num
    · constructor <;> norm_num

/-- Witness for C3's amended claim: the 365-day equity sale is long-term
in the portfolio manager, and a 366-day-old lot is long-term in the
backend computation. -/
theorem c3_amended_classification_witness :
    ((⟨365, "S1", "EquityFund", 100, 30, 3000, 10, 1000, 2000, 200, 365,
        "LTCG"⟩ : CapitalGain).gain_type = "LTCG" ↔
      PortfolioManager.ltcgDays true ≤ 365)
    ∧ (Calculations.calculate_capital_gains [⟨0, 100, 50⟩] 75 0 366).ltcg = 2500 := by
  constructor
  · exact c3_amended_classification.1
      [⟨0, "S1", "EquityFund", "BUY", 100, 10, 1000⟩,
       ⟨365, "S1", "EquityFund", "SELL", 100, 30, 3000⟩] none true
      ⟨365, "S1", "EquityFund", 100, 30, 3000, 10, 1000, 2000, 200, 365, "LTCG"⟩
      (by rw [PortfolioManager.pm365_eval]; simp)
  · have h := (c3_amended_classification.2.2 ⟨0, 100, 50⟩ 75 366 (by norm_num)).1
    rw [h]
    norm_num

/-- C4 counterexample.  The emitted `units_sold` field is
`round(units_from_buy, 3)`.  On the log [BUY 1 @10 day 0,
SELL 0.0004 @10 day 1] — one instrument, date order, cumulative BUY ≥
cumulative SELL at every prefix (last two conjuncts; longer prefixes
coincide with the whole list) — the single emitted record carries
`units_sold = round(0.0004, 3) = 0`, so the sum of `units_sold` is 0 while
the total SELL quantity is 1/2500, refuting exact conservation as claimed. -/
theorem c4_counterexample_rounded_units :
    soldSum (PortfolioManager.calculate_capital_gains
        [⟨0, "S1", "EquityFund", "BUY", 1, 10, 10⟩,
         ⟨1, "S1", "EquityFund", "SELL", 1/2500, 10, 1/250⟩] none true).1 = 0
    ∧ unitsSum (PortfolioManager.sellsOf
        [⟨0, "S1", "EquityFund", "BUY", 1, 10, 10⟩,
         ⟨1, "S1", "EquityFund", "SELL", 1/2500, 10, 1/250⟩] "S1") = 1/2500
    ∧ (0 : ℚ) ≠ 1/2500
    ∧ unitsSum (PortfolioManager.sellsOf
        (List.take 1 [⟨0, "S1", "EquityFund", "BUY", 1, 10, 10⟩,
          ⟨1, "S1", "EquityFund", "SELL", 1/2500, 10, 1/250⟩]) "S1") ≤
      unitsSum (PortfolioManager.buysOf
        (List.take 1 [⟨0, "S1", "EquityFund", "BUY", 1, 10, 10⟩,
          ⟨1, "S1", "EquityFund", "SELL", 1/2500, 10, 1/250⟩]) "S1")
    ∧ unitsSum (PortfolioManager.sellsOf
        (List.take 2 [⟨0, "S1", "EquityFund", "BUY", 1, 10, 10⟩,
          ⟨1, "S1", "EquityFund", "SELL", 1/2500, 10, 1/250⟩]) "S1") ≤
      unitsSum (PortfolioManager.buysOf
        (List.take 2 [⟨0, "S1", "EquityFund", "BUY", 1, 10, 10⟩,
          ⟨1, "S1", "EquityFund", "SELL", 1/2500, 10, 1/250⟩]) "S1") := by
  refine ⟨?_, ?_, ?_, ?_, ?_⟩
  · norm_num [PortfolioManager.calculate_capital_gains, PortfolioManager.ltcgDays,
      PortfolioManager.schemeKeys, PortfolioManager.schemeKeysGo,
      PortfolioManager.buysOf, PortfolioManager.sellsOf, PortfolioManager.runSells,
      PortfolioManager.runSell, PortfolioManager.mkGain, pyround, roundHalfEven, soldSum]
  · norm_num [PortfolioManager.sellsOf, unitsSum, List.filter_cons]
    simp only [String.reduceEq, if_false]
    norm_num
  · norm_num
  · norm_num [PortfolioManager.sellsOf, PortfolioManager.buysOf, unitsSum, List.filter_cons]
    simp only [String.reduceEq, if_false]
    norm_num
  · norm_num [PortfolioManager.sellsOf, PortfolioManager.buysOf, unitsSum, List.filter_cons]
    simp only [String.reduceEq, if_false]
    norm_num

/-- C4 amended.  FIFO conservation holds once every transaction quantity
is a whole multiple of 0.001 (so that the 3-decimal rounding of the
emitted `units_sold` is the identity; the counterexample shows exact
conservation of the rounded field fails below that granularity): for a
single-instrument, date-ordered, nonnegative-quantity log whose cumulative
BUY quantity covers the cumulative SELL quantity at every prefix, the
emitted `units_sold` values sum exactly to the total SELL quantity. -/
theorem c4_amended_fifo_conservation :
    ∀ (txs : List Transaction) (s : String),
      (∀ t ∈ txs, t.scheme_code = s) →
      (∀ t ∈ txs, 0 ≤ t.units ∧ Mult1000 t.units) →
      List.Pairwise (fun a b : Transaction => a.date ≤ b.date) txs →
      (∀ n : ℕ, unitsSum (PortfolioManager.sellsOf (txs.take n) s) ≤
        unitsSum (PortfolioManager.buysOf (txs.take n) s)) →
      soldSum (PortfolioManager.calculate_capital_gains txs none true).1 =
        unitsSum (PortfolioManager.sellsOf txs s) := by
  intro txs s hall hnm hsorted hpre
  cases txs with
  | nil =>
    simp [PortfolioManager.calculate_capital_gains, PortfolioManager.schemeKeys,
      PortfolioManager.schemeKeysGo, PortfolioManager.sellsOf, soldSum, unitsSum]
  | cons t0 ts =>
    rw [PortfolioManager.calc_uniform_gains s t0 ts hall]
    have hfull := hpre (t0 :: ts).length
    rw [List.take_length] at hfull
    apply PortfolioManager.runSells_conserve
    · intro t ht
      exact hnm t (List.mem_filter.mp ht).1
    · intro b hb
      exact (hnm b (List.mem_filter.mp hb).1).2
    · exact hfull

/-- Witness for C4's amended claim: BUY 100, SELL 40, SELL 60 conserves
the 100 sold units across the emitted records. -/
theorem c4_amended_fifo_conservation_witness :
    soldSum (PortfolioManager.calculate_capital_gains
        [⟨0, "S1", "EquityFund", "BUY", 100, 10, 1000⟩,
         ⟨10, "S1", "EquityFund", "SELL", 40, 30, 1200⟩,
         ⟨20, "S1", "EquityFund", "SELL", 60, 30, 1800⟩] none true).1 = 100 := by
  have h := c4_amended_fifo_conservation
    [⟨0, "S1", "EquityFund", "BUY", 100, 10, 1000⟩,
     ⟨10, "S1", "EquityFund", "SELL", 40, 30, 1200⟩,
     ⟨20, "S1", "EquityFund", "SELL", 60, 30, 1800⟩] "S1"
    (by intro t ht; simp at ht; rcases ht with rfl | rfl | rfl <;> rfl)
    (by
      intro t ht; simp at ht
      rcases ht with rfl | rfl | rfl
      · exact ⟨by norm_num, ⟨100000, by norm_num⟩⟩
      · exact ⟨by norm_num, ⟨40000, by norm_num⟩⟩
      · exact ⟨by norm_num, ⟨60000, by norm_num⟩⟩)
    (by
      refine List.Pairwise.cons ?_ (List.Pairwise.cons ?_ (List.pairwise_singleton _ _))
      · intro t ht; simp at ht; rcases ht with rfl | rfl <;> norm_num
      · intro t ht; simp at ht; rcases ht with rfl; norm_num)
    (by
      intro n
      rcases n with _ | _ | _ | n
      · simp [PortfolioManager.sellsOf, PortfolioManager.buysOf, unitsSum]
      · norm_num [PortfolioManager.sellsOf, PortfolioManager.buysOf, unitsSum,
          List.take_succ_cons, List.filter_cons]
        simp only [String.reduceEq, if_false]
        norm_num
      · norm_num [PortfolioManager.sellsOf, PortfolioManager.buysOf, unitsSum,
          List.take_succ_cons, List.filter_cons]
        simp only [String.reduceEq, if_false]
        norm_num
      · rw [List.take_of_length_le (by norm_num)]
        norm_num [PortfolioManager.sellsOf, PortfolioManager.buysOf, unitsSum,
          List.filter_cons]
        simp only [String.reduceEq, if_false]
        norm_num)
  rw [h]
  norm_num [PortfolioManager.sellsOf, unitsSum, List.filter_cons]
  simp only [String.reduceEq, if_false]
  norm_num

/-- C2 amended.  When a SELL's quantity exceeds the total available BUY
lot quantity, `calculate_capital_gains` surfaces nothing: it returns
normally (its result type has no error value) and silently emits gain
records covering only the available quantity.  Stated for a
single-instrument log whose only SELL exceeds the total BUY quantity,
with nonnegative multiple-of-0.001 quantities: the emitted `units_sold`
values sum to the total BUY quantity, strictly less than the SELL
quantity. -/
theorem c2_amended_partial_matching :
    ∀ (txs : List Transaction) (s : String) (sell : Transaction),
      (∀ t ∈ txs, t.scheme_code = s) →
      (∀ t ∈ txs, 0 ≤ t.units ∧ Mult1000 t.units) →
      PortfolioManager.sellsOf txs s = [sell] →
      unitsSum (PortfolioManager.buysOf txs s) < sell.units →
      soldSum (PortfolioManager.calculate_capital_gains txs none true).1 =
        unitsSum (PortfolioManager.buysOf txs s)
      ∧ unitsSum (PortfolioManager.buysOf txs s) < sell.units := by
  intro txs s sell hall hnm hsell hlt
  cases txs with
  | nil => exact absurd hsell (by simp [PortfolioManager.sellsOf])
  | cons t0 ts =>
    rw [PortfolioManager.calc_uniform_gains s t0 ts hall, hsell]
    refine ⟨?_, hlt⟩
    have hd := PortfolioManager.runSell_drain 365 t0.scheme_name sell
      (PortfolioManager.buysOf (t0 :: ts) s) sell.units
      (fun b hb => ⟨(hnm b (List.mem_filter.mp hb).1).1,
        (hnm b (List.mem_filter.mp hb).1).2⟩) hlt
    simp only [PortfolioManager.runSells, List.append_nil]
    exact hd.1

/-- Witness for C2's amended claim: BUY 100 then SELL 150 matches exactly
the 100 available units. -/
theorem c2_amended_partial_matching_witness :
    soldSum (PortfolioManager.calculate_capital_gains
        [⟨0, "S1", "EquityFund", "BUY", 100, 10, 1000⟩,
         ⟨10, "S1", "EquityFund", "SELL", 150, 30, 4500⟩] none true).1 = 100
    ∧ (100 : ℚ) < 150 := by
  have h := c2_amended_partial_matching
    [⟨0, "S1", "EquityFund", "BUY", 100, 10, 1000⟩,
     ⟨10, "S1", "EquityFund", "SELL", 150, 30, 4500⟩] "S1"
    ⟨10, "S1", "EquityFund", "SELL", 150, 30, 4500⟩
    (by intro t ht; simp at ht; rcases ht with rfl | rfl <;> rfl)
    (by
      intro t ht; simp at ht
      rcases ht with rfl | rfl
      · exact ⟨by norm_num, ⟨100000, by norm_num⟩⟩
      · exact ⟨by norm_num, ⟨150000, by norm_num⟩⟩)
    (by
      norm_num [PortfolioManager.sellsOf, List.filter_cons]
      simp only [String.reduceEq, if_false]
      norm_num)
    (by
      norm_num [PortfolioManager.buysOf, unitsSum, List.filter_cons]
      simp only [String.reduceEq, if_false]
      norm_num)
  have hb : unitsSum (PortfolioManager.buysOf
      [⟨0, "S1", "EquityFund", "BUY", 100, 10, 1000⟩,
       ⟨10, "S1", "EquityFund", "SELL", 150, 30, 4500⟩] "S1") = 100 := by
    norm_num [PortfolioManager.buysOf, unitsSum, List.filter_cons]
    simp only [String.reduceEq, if_false]
    norm_num
  refine ⟨?_, by norm_num⟩
  rw [h.1, hb]

/-- C7 counterexample.  For the outflow 0.009 at day 0 and inflow 10⁻¹⁰ at
day 365 (X, Y > 0, d > 0), `xirr` with the default guess 0.1 returns the
rate 0.1 through the loose exit acceptance (|NPV| ≈ 0.009 < 0.01 after the
small-derivative break), yet |Y − X·(1+r)^(d/365)| = |10⁻¹⁰ − 0.009·1.1| ≈
0.0099 ≥ 10⁻⁴: the returned rate violates the claimed 1e-4 round trip. -/
theorem c7_counterexample_round_trip :
    Calculations.xirr [(0, -(9/1000)), (365, 1/10000000000)] (1/10) = some (1/10)
    ∧ (0 : ℚ) < 9/1000
    ∧ (0 : ℚ) < 1/10000000000
    ∧ (0 : ℤ) < 365
    ∧ 1/10000 ≤
        |1/10000000000 - 9/1000 * Calculations.qpow (1 + 1/10) ((365 : ℚ)/365)| := by
  refine ⟨Calculations.xirr_cex_eval, by norm_num, by norm_num, by norm_num, ?_⟩
  norm_num [Calculations.qpow_one, abs_of_neg]

/-- C6 (confirmed).  `xirr` returns the failure signal (`none`) for fewer
than 2 cash flows.  When it returns a rate `r`, either the primary in-loop
convergence test fired (|NPV(r)| < 1e-6 < 0.01), or the loop fell through
(small-derivative break or 100 iterations exhausted) with a final `npv`
value accepted by the loose test |npv| < 0.01 — so a number is never
returned when the final |NPV| ≥ 0.01.  Conversely, when the loop falls
through with final pair `(rate, npv)`, `xirr` returns `rate` if
|npv| < 0.01 and `none` otherwise. -/
theorem c6_xirr_failure_semantics :
    (∀ (txs : List (ℤ × ℚ)) (guess : ℚ), txs.length < 2 →
      Calculations.xirr txs guess = none)
    ∧ (∀ (txs : List (ℤ × ℚ)) (guess r : ℚ), Calculations.xirr txs guess = some r →
        |Calculations.npvQ (Calculations.daysAmounts txs) r| < 1/1000000
        ∨ ∃ npv : ℚ,
            Calculations.nrLoop (Calculations.npvQ (Calculations.daysAmounts txs))
              (Calculations.dnpvQ (Calculations.daysAmounts txs)) 100 guess =
                Sum.inr (r, npv)
            ∧ |npv| < 1/100)
    ∧ (∀ (txs : List (ℤ × ℚ)) (guess r npv : ℚ), 2 ≤ txs.length →
        Calculations.nrLoop (Calculations.npvQ (Calculations.daysAmounts txs))
          (Calculations.dnpvQ (Calculations.daysAmounts txs)) 100 guess =
            Sum.inr (r, npv) →
        Calculations.xirr txs guess = if |npv| < 1/100 then some r else none) := by
  refine ⟨?_, ?_, ?_⟩
  · intro txs guess hlen
    simp only [Calculations.xirr]
    rw [if_pos hlen]
  · intro txs guess r h
    by_cases hl : txs.length < 2
    · rw [(by simp only [Calculations.xirr]; rw [if_pos hl] :
        Calculations.xirr txs guess = none)] at h
      exact absurd h (by simp)
    · exact Calculations.xirr_some_cases txs guess r hl h
  · intro txs guess r npv hlen hm
    simp only [Calculations.xirr]
    rw [if_neg (by omega), hm]

/-- Witness for C6: the empty flow list yields `none`; the C7
counterexample input falls through the loop with npv ≈ −0.009 accepted by
the loose test, and `xirr` indeed returns the last rate 0.1. -/
theorem c6_xirr_failure_semantics_witness :
    Calculations.xirr ([] : List (ℤ × ℚ)) (1/10) = none
    ∧ Calculations.xirr [(0, -(9/1000)), (365, 1/10000000000)] (1/10) = some (1/10) := by
  constructor
  · exact c6_xirr_failure_semantics.1 [] (1/10) (by norm_num)
  · have h := c6_xirr_failure_semantics.2.2 [(0, -(9/1000)), (365, 1/10000000000)]
      (1/10) (1/10) (-(98999999/11000000000)) (by norm_num)
      (by rw [Calculations.xirr_cex_das]; exact Calculations.xirr_cex_loop)
    rw [h, if_pos (by rw [abs_of_neg (by norm_num)]; norm_num)]

/-- C7 amended.  When `xirr` returns a rate at all, all that is guaranteed
is that the NPV of the cash flows is below 0.01 in absolute value at some
rate evaluated by the loop — for the primary convergence exit that rate is
the returned one, but for the loose fall-through acceptance it may be the
pre-update rate, so the claimed 1e-4 round-trip bound at the returned rate
can fail (see the counterexample). -/
theorem c7_amended_round_trip (txs : List (ℤ × ℚ)) (guess r : ℚ)
    (h : Calculations.xirr txs guess = some r) :
    ∃ ρ : ℚ, |Calculations.npvQ (Calculations.daysAmounts txs) ρ| < 1/100 := by
  have hl : ¬txs.length < 2 := by
    by_contra hc
    rw [(by simp only [Calculations.xirr]; rw [if_pos hc] :
      Calculations.xirr txs guess = none)] at h
    exact absurd h (by simp)
  rcases Calculations.xirr_some_cases txs guess r hl h with h1 | ⟨npv, hm, hc⟩
  · exact ⟨r, lt_trans h1 (by norm_num)⟩
  · obtain ⟨ρ, hρ⟩ := Calculations.nrLoop_inr _ _ 100 guess r npv (by norm_num) hm
    exact ⟨ρ, hρ ▸ hc⟩

/-- Witness for C7's amended claim at the counterexample input. -/
theorem c7_amended_round_trip_witness :
    ∃ ρ : ℚ,
      |Calculations.npvQ
        (Calculations.daysAmounts [(0, -(9/1000)), (365, 1/10000000000)]) ρ| < 1/100 :=
  c7_amended_round_trip _ _ _ Calculations.xirr_cex_eval

/-- C9 (confirmed).  `calculate_cagr` returns `none` exactly when
`invested ≤ 0`, `current_value ≤ 0`, `days ≤ 0` or `days/365 < 0.01`;
otherwise it returns `((current_value/invested)^(365/days) − 1) × 100`
(the code computes the exponent as `1 / (days/365.0)`, the same rational);
and `calculate_cagr(10000, 12500, 3)` is `none` (3 days < 0.01 years). -/
theorem c9_cagr_guards :
    (∀ (invested current_value : ℚ) (days : ℤ),
      (Calculations.calculate_cagr invested current_value days = none ↔
        invested ≤ 0 ∨ current_value ≤ 0 ∨ days ≤ 0 ∨ (days : ℚ)/365 < 1/100)
      ∧ (¬(invested ≤ 0 ∨ current_value ≤ 0 ∨ days ≤ 0 ∨ (days : ℚ)/365 < 1/100) →
          Calculations.calculate_cagr invested current_value days =
            some ((Calculations.qpow (current_value / invested) (365 / (days : ℚ)) - 1)
              * 100)))
    ∧ Calculations.calculate_cagr 10000 12500 3 = none := by
  constructor
  · intro i c d
    constructor
    · by_cases h1 : i ≤ 0 ∨ c ≤ 0 ∨ d ≤ 0
      · simp only [Calculations.calculate_cagr, if_pos h1]
        exact iff_of_true (by simp) (by tauto)
      · by_cases h2 : (d : ℚ)/365 < 1/100
        · simp only [Calculations.calculate_cagr, if_neg h1, if_pos h2]
          exact iff_of_true (by simp) (by tauto)
        · simp only [Calculations.calculate_cagr, if_neg h1, if_neg h2]
          exact iff_of_false (by simp) (by tauto)
    · intro h
      have h1 : ¬(i ≤ 0 ∨ c ≤ 0 ∨ d ≤ 0) := by tauto
      have h2 : ¬((d : ℚ)/365 < 1/100) := by tauto
      simp only [Calculations.calculate_cagr, if_neg h1, if_neg h2]
      rw [one_div_div]
  · norm_num [Calculations.calculate_cagr]

/-- C8 (confirmed).  In the `get_holdings` accumulation loop, the running
total for every instrument is ΣBUY − ΣSELL over its transactions, and a
SELL that leaves a positive remaining quantity reduces the invested
amount by the average-cost rule
`invested_after = invested_before × (1 − sold_qty / total_qty_before)`
(the code computes `avg_nav = invested / (total_after + units)`, and
`total_after + units` is exactly the pre-sale total). -/
theorem c8_holdings_accumulation :
    (∀ (txs : List Transaction) (s : String),
      (PortfolioManager.hstate txs s).1 =
        unitsSum (((txs.filter fun t => t.scheme_code == s).filter
            fun t => t.transaction_type == "BUY"))
        - unitsSum (((txs.filter fun t => t.scheme_code == s).filter
            fun t => t.transaction_type == "SELL")))
    ∧ (∀ (st : ℚ × ℚ) (t : Transaction), t.transaction_type = "SELL" →
        0 < st.1 - t.units →
        PortfolioManager.hstep st t = (st.1 - t.units, st.2 * (1 - t.units / st.1))) := by
  constructor
  · intro txs s
    rw [PortfolioManager.hstate, PortfolioManager.hfold_units]
    ring
  · intro st t hs hpos
    simp only [PortfolioManager.hstep]
    rw [if_neg (by rw [hs]; simp), if_pos hs, if_pos hpos]
    have harg : st.1 - t.units + t.units = st.1 := by ring
    rw [harg]
    simp only [Prod.mk.injEq]
    refine ⟨by trivial, ?_⟩
    by_cases hz : st.1 = 0
    · rw [hz]
      simp
    · field_simp
      ring

/-- Witness for C8: selling 40 of 100 units with 1000 invested leaves 60
units and 600 invested (average cost 10 per unit). -/
theorem c8_holdings_accumulation_witness :
    PortfolioManager.hstep (100, 1000) ⟨0, "S1", "EquityFund", "SELL", 40, 25, 1000⟩ =
      (60, 600) := by
  have h := c8_holdings_accumulation.2 (100, 1000)
    ⟨0, "S1", "EquityFund", "SELL", 40, 25, 1000⟩ rfl (by norm_num)
  rw [h]
  norm_num

/-- Witness for C9: 100 invested growing to 200 over exactly one year
passes every guard and yields a CAGR of 100%. -/
theorem c9_cagr_guards_witness :
    Calculations.calculate_cagr 100 200 365 = some 100 := by
  have h := (c9_cagr_guards.1 100 200 365).2 (by norm_num)
  rw [h]
  norm_num [Calculations.qpow_one]

end MFDash
